import Mathlib

/-!
Shallow embedding of the BPX image library core (pixel formats, `Color`,
the `Image` pixel codec, `ColorRamp`) together with proofs checking the
natural-language specification against the code.

Modelling conventions:
* C++ `uint8_t` / `uint16_t` / `uint32_t` / `size_t` values are `Nat`,
  with explicit bounds (`< 256`, `< 2 ^ 32`, ...) where overflow matters.
* IEEE binary32 `float` arithmetic is modelled by exact rational (`ℚ`)
  arithmetic.  Every theorem below that depends on a float computation is
  evaluated only at points where each intermediate binary32 operation is
  exact or where the rounding error cannot cross the relevant integer
  truncation boundary, so the rational model agrees with the C++ result.
* `static_cast<uint8_t>(f)` / `static_cast<int>(f)` on a float truncate
  toward zero: `qTrunc` below.  `std::round` rounds half away from zero:
  `qRound` below.
* The raw pixel buffer `void* m_pixels` is modelled as `Mem := Nat → Nat`,
  a cell-indexed store; for `_U8` formats a cell is one byte, for the
  packed 16-bit formats a cell is one `uint16_t` word, mirroring the
  `(uint8_t*)m_pixels` / `(uint16_t*)m_pixels` reinterpretation casts of
  `image.cpp`.  The floating-point formats are not modelled (no claim
  depends on them); their codec branches return the buffer unchanged /
  the zero-initialised `Color result{}`.
-/

namespace BPX

/-- Pixel format enumeration, from `include/BPX/pixel.hpp`. -/
inductive PixelFormat where
  | L_U8 | L_F16 | L_F32 | LA_U8 | LA_F16 | LA_F32
  | RGB_565 | BGR_565 | RGB_U8 | BGR_U8
  | RGB_F16 | BGR_F16 | RGB_F32 | BGR_F32
  | RGBA_5551 | BGRA_5551 | RGBA_4444 | BGRA_4444
  | RGBA_U8 | BGRA_U8 | RGBA_F16 | BGRA_F16 | RGBA_F32 | BGRA_F32
  deriving DecidableEq, Repr

open PixelFormat

/-- Embedding of `pixel_size` from `include/BPX/pixel.hpp` (the switch is
transcribed case group by case group, with the exact literals returned by
the source). -/
def pixel_size : PixelFormat → Nat
  | L_U8 => 1
  | L_F16 | LA_U8 => 2
  | RGB_U8 | BGR_U8 => 3
  | L_F32 | LA_F16 | RGB_565 | BGR_565 => 4
  | RGB_F16 | BGR_F16 => 6
  | LA_F32 => 8
  | RGB_F32 | BGR_F32 => 12
  | RGBA_5551 | BGRA_5551 | RGBA_4444 | BGRA_4444 => 16
  | RGBA_U8 | BGRA_U8 => 32
  | RGBA_F16 | BGRA_F16 => 64
  | RGBA_F32 | BGRA_F32 => 128

/-- Bytes per pixel as the specification describes `pixel_size`: channel
count times bytes per channel, 2 bytes for every packed 16-bit format.
Written from the spec sentence, for comparison with the source table. -/
def spec_bytes_per_pixel : PixelFormat → Nat
  | L_U8 => 1
  | LA_U8 => 2
  | RGB_U8 | BGR_U8 => 3
  | RGBA_U8 | BGRA_U8 => 4
  | RGB_565 | BGR_565 | RGBA_5551 | BGRA_5551 | RGBA_4444 | BGRA_4444 => 2
  | L_F16 => 2
  | LA_F16 => 4
  | RGB_F16 | BGR_F16 => 6
  | RGBA_F16 | BGRA_F16 => 8
  | L_F32 => 4
  | LA_F32 => 8
  | RGB_F32 | BGR_F32 => 12
  | RGBA_F32 | BGRA_F32 => 16

/-- Blend mode enumeration, from `include/BPX/color.hpp`. -/
inductive BlendMode where
  | REPLACE | ALPHA | ADD | SUB | MUL | SCREEN
  | DARKEN | LIGHTEN | DIFFERENCE | EXCLUSION | DODGE | BURN
  deriving DecidableEq, Repr

/-- A color: four `uint8_t` channels (`struct Color` of
`include/BPX/color.hpp`).  The byte range is tracked by `Color.Valid`. -/
structure Color where
  r : Nat
  g : Nat
  b : Nat
  a : Nat
  deriving DecidableEq, Repr

/-- Channel values of a C++ `Color` are bytes. -/
def Color.Valid (c : Color) : Prop :=
  c.r < 256 ∧ c.g < 256 ∧ c.b < 256 ∧ c.a < 256

instance (c : Color) : Decidable c.Valid := by
  unfold Color.Valid; infer_instance

/-- Default-constructed `Color()`: transparent black. -/
def Color.default0 : Color := ⟨0, 0, 0, 0⟩

/-- Constructor `Color(uint32_t)` of `color.hpp`: unpack the 32-bit value
with the source's masks and shifts. -/
def Color.ofUint32 (color : Nat) : Color :=
  ⟨color &&& 0x000000FF,
   (color &&& 0x0000FF00) >>> 8,
   (color &&& 0x00FF0000) >>> 16,
   (color &&& 0xFF000000) >>> 24⟩

/-- Conversion `operator uint32_t()` of `color.hpp`:
`(a << 24) | (b << 16) | (g << 8) | r` (left associated, as in C++). -/
def Color.toUint32 (c : Color) : Nat :=
  ((c.a <<< 24 ||| c.b <<< 16) ||| c.g <<< 8) ||| c.r

/-- Truncation toward zero of a rational, the conversion a C++
`static_cast` from a floating-point value to an integer type performs. -/
def qTrunc (q : ℚ) : ℤ :=
  if 0 ≤ q then ⌊q⌋ else ⌈q⌉

/-- Conversion of a (nonnegative, in-range) float to `uint8_t`. -/
def u8cast (q : ℚ) : Nat := (qTrunc q).toNat

/-- Rounding half away from zero, the behaviour of `std::round`. -/
def qRound (q : ℚ) : ℤ :=
  if 0 ≤ q then ⌊q + 1 / 2⌋ else -⌊(1 / 2) - q⌋

/-- Conversion of a rounded nonnegative float to `uint16_t`. -/
def u16round (q : ℚ) : Nat := (qRound q).toNat

/-- Embedding of `std::clamp(v, lo, hi)` on floats. -/
def clampQ (v lo hi : ℚ) : ℚ :=
  if v < lo then lo else if hi < v then hi else v

/-- Static member `Color::from_hsv` of `color.hpp`.  The six sector tests
are transcribed literally; when none matches, `r = g = b = 0` stay at
their initialisers. -/
def Color.from_hsv (hue saturation value alphaIn : ℚ) : Color :=
  let c := value * saturation
  let x := c * (1 - |(hue / 60) - 2 * (qTrunc (hue / 60 / 2) : ℚ) - 1|)
  let m := value - c
  let rgb : ℚ × ℚ × ℚ :=
    if 0 ≤ hue ∧ hue < 60 then (c, x, 0)
    else if 60 ≤ hue ∧ hue < 120 then (x, c, 0)
    else if 120 ≤ hue ∧ hue < 180 then (0, c, x)
    else if 180 ≤ hue ∧ hue < 240 then (0, x, c)
    else if 240 ≤ hue ∧ hue < 300 then (x, 0, c)
    else if 300 ≤ hue ∧ hue < 360 then (c, 0, x)
    else (0, 0, 0)
  ⟨u8cast ((rgb.1 + m) * 255),
   u8cast ((rgb.2.1 + m) * 255),
   u8cast ((rgb.2.2 + m) * 255),
   u8cast (alphaIn * 255)⟩

/-- Helper `clamp_ubyte` from `blend` in `include/BPX/algorithm.hpp`:
`max(0, min(255, value))` on `int`, then cast to `uint8_t`. -/
def clamp_ubyte (value : ℤ) : Nat := (max 0 (min 255 value)).toNat

/-- Function `luminance_value` of `algorithm.hpp`:
`0.299f*r + 0.587f*g + 0.114f*b`, implicitly converted to `uint8_t`. -/
def luminance_value (color : Color) : Nat :=
  u8cast ((299 / 1000) * color.r + (587 / 1000) * color.g + (114 / 1000) * color.b)

/-- Function `lerp` of `algorithm.hpp`: per-channel
`a.c + t * (b.c - a.c)` truncated to `uint8_t` (the subtraction happens
in `int` and may be negative). -/
def lerp (a b : Color) (t : ℚ) : Color :=
  ⟨u8cast ((a.r : ℚ) + t * ((b.r : ℚ) - (a.r : ℚ))),
   u8cast ((a.g : ℚ) + t * ((b.g : ℚ) - (a.g : ℚ))),
   u8cast ((a.b : ℚ) + t * ((b.b : ℚ) - (a.b : ℚ))),
   u8cast ((a.a : ℚ) + t * ((b.a : ℚ) - (a.a : ℚ)))⟩

/-- Function `contrast(Color, float)` of `algorithm.hpp`, transcribed
statement by statement (note the order of the components in the returned
braced initialiser: `rf`, then `bf`, then `gf`, exactly as the source
writes it). -/
def contrast (color : Color) (factor0 : ℚ) : Color :=
  let factor1 := clampQ factor0 (-1) 1
  let factor2 := 1 + factor1
  let factor := factor2 * factor2
  let rf := clampQ (((color.r : ℚ) / 255 - 1 / 2) * factor + 1 / 2) 0 1
  let gf := clampQ (((color.g : ℚ) / 255 - 1 / 2) * factor + 1 / 2) 0 1
  let bf := clampQ (((color.b : ℚ) / 255 - 1 / 2) * factor + 1 / 2) 0 1
  ⟨u8cast (rf * 255), u8cast (bf * 255), u8cast (gf * 255), color.a⟩

/-- Function `blend` of `algorithm.hpp`.  Integer branches are exact;
the ALPHA branch's float arithmetic is modelled over ℚ
(`static_cast<int>` is `qTrunc`). -/
def blend (dst src : Color) (mode : BlendMode) : Color :=
  match mode with
  | .REPLACE => src
  | .ALPHA =>
      let src_alpha : ℚ := (src.a : ℚ) / 255
      let dst_alpha : ℚ := (dst.a : ℚ) / 255 * (1 - src_alpha)
      let out_alpha : ℚ := src_alpha + dst_alpha
      ⟨clamp_ubyte (qTrunc (((src.r : ℚ) * src_alpha + (dst.r : ℚ) * dst_alpha) / out_alpha)),
       clamp_ubyte (qTrunc (((src.g : ℚ) * src_alpha + (dst.g : ℚ) * dst_alpha) / out_alpha)),
       clamp_ubyte (qTrunc (((src.b : ℚ) * src_alpha + (dst.b : ℚ) * dst_alpha) / out_alpha)),
       clamp_ubyte (qTrunc (out_alpha * 255))⟩
  | .ADD =>
      ⟨clamp_ubyte ((dst.r : ℤ) + src.r), clamp_ubyte ((dst.g : ℤ) + src.g),
       clamp_ubyte ((dst.b : ℤ) + src.b), dst.a⟩
  | .SUB =>
      ⟨clamp_ubyte ((dst.r : ℤ) - src.r), clamp_ubyte ((dst.g : ℤ) - src.g),
       clamp_ubyte ((dst.b : ℤ) - src.b), dst.a⟩
  | .MUL =>
      ⟨clamp_ubyte ((dst.r : ℤ) * src.r / 255), clamp_ubyte ((dst.g : ℤ) * src.g / 255),
       clamp_ubyte ((dst.b : ℤ) * src.b / 255), dst.a⟩
  | .SCREEN =>
      ⟨clamp_ubyte (255 - ((255 - (dst.r : ℤ)) * (255 - src.r) / 255)),
       clamp_ubyte (255 - ((255 - (dst.g : ℤ)) * (255 - src.g) / 255)),
       clamp_ubyte (255 - ((255 - (dst.b : ℤ)) * (255 - src.b) / 255)), dst.a⟩
  | .DARKEN => ⟨min dst.r src.r, min dst.g src.g, min dst.b src.b, dst.a⟩
  | .LIGHTEN => ⟨max dst.r src.r, max dst.g src.g, max dst.b src.b, dst.a⟩
  | .DIFFERENCE =>
      ⟨clamp_ubyte |(dst.r : ℤ) - src.r|, clamp_ubyte |(dst.g : ℤ) - src.g|,
       clamp_ubyte |(dst.b : ℤ) - src.b|, dst.a⟩
  | .EXCLUSION =>
      ⟨clamp_ubyte ((dst.r : ℤ) + src.r - 2 * dst.r * src.r / 255),
       clamp_ubyte ((dst.g : ℤ) + src.g - 2 * dst.g * src.g / 255),
       clamp_ubyte ((dst.b : ℤ) + src.b - 2 * dst.b * src.b / 255), dst.a⟩
  | .DODGE =>
      ⟨clamp_ubyte (if src.r = 255 then 255 else min 255 ((dst.r : ℤ) * 255 / (255 - src.r))),
       clamp_ubyte (if src.g = 255 then 255 else min 255 ((dst.g : ℤ) * 255 / (255 - src.g))),
       clamp_ubyte (if src.b = 255 then 255 else min 255 ((dst.b : ℤ) * 255 / (255 - src.b))), dst.a⟩
  | .BURN =>
      ⟨clamp_ubyte (if src.r = 0 then 0 else max 0 (255 - (255 - (dst.r : ℤ)) * 255 / src.r)),
       clamp_ubyte (if src.g = 0 then 0 else max 0 (255 - (255 - (dst.g : ℤ)) * 255 / src.g)),
       clamp_ubyte (if src.b = 0 then 0 else max 0 (255 - (255 - (dst.b : ℤ)) * 255 / src.b)), dst.a⟩

/-- Cell-indexed pixel store (see the modelling note at the top). -/
def Mem : Type := Nat → Nat

/-- Write one cell of the store. -/
def Mem.write (m : Mem) (i v : Nat) : Mem := fun j => if j = i then v else m j

/-- The `Image` class of `include/BPX/image.hpp` restricted to what the
pixel codec touches: the buffer, the format tag and the dimensions
(`int m_w, m_h`). -/
structure Image where
  pixels : Mem
  format : PixelFormat
  w : Int
  h : Int

/-- Member `Image::get_unsafe(size_t offset)` of `src/image.cpp`: decode
one pixel.  The byte/word addressing mirrors the pointer casts of the
source (`(uint8_t*)m_pixels + k * offset`, `((uint16_t*)m_pixels)[offset]`).
The `255 / 31`, `255 / 63` and `255 / 15` scale factors are the source's
integer divisions.  Floating-point formats are not modelled and return
the zero-initialised `Color result{}`. -/
def Image.get_unsafe (img : Image) (offset : Nat) : Color :=
  match img.format with
  | .L_U8 =>
      let gray := img.pixels offset
      ⟨gray, gray, gray, 255⟩
  | .LA_U8 =>
      let gray := img.pixels (2 * offset)
      let alphaC := img.pixels (2 * offset + 1)
      ⟨gray, gray, gray, alphaC⟩
  | .RGB_565 =>
      let pixel := img.pixels offset
      ⟨((pixel &&& 0xF800) >>> 11) * (255 / 31),
       ((pixel &&& 0x7E0) >>> 5) * (255 / 63),
       (pixel &&& 0x1F) * (255 / 31), 255⟩
  | .BGR_565 =>
      let pixel := img.pixels offset
      ⟨(pixel &&& 0x1F) * (255 / 31),
       ((pixel &&& 0x7E0) >>> 5) * (255 / 63),
       ((pixel &&& 0xF800) >>> 11) * (255 / 31), 255⟩
  | .RGB_U8 =>
      ⟨img.pixels (3 * offset), img.pixels (3 * offset + 1),
       img.pixels (3 * offset + 2), 255⟩
  | .BGR_U8 =>
      ⟨img.pixels (3 * offset + 2), img.pixels (3 * offset + 1),
       img.pixels (3 * offset), 255⟩
  | .RGBA_5551 =>
      let pixel := img.pixels offset
      ⟨((pixel &&& 0xF800) >>> 11) * (255 / 31),
       ((pixel &&& 0x7C0) >>> 6) * (255 / 31),
       ((pixel &&& 0x3E) >>> 1) * (255 / 31),
       (pixel &&& 0x1) * 255⟩
  | .BGRA_5551 =>
      let pixel := img.pixels offset
      ⟨((pixel &&& 0x3E) >>> 1) * (255 / 31),
       ((pixel &&& 0x7C0) >>> 6) * (255 / 31),
       ((pixel &&& 0xF800) >>> 11) * (255 / 31),
       (pixel &&& 0x1) * 255⟩
  | .RGBA_4444 =>
      let pixel := img.pixels offset
      ⟨((pixel &&& 0xF000) >>> 12) * (255 / 15),
       ((pixel &&& 0xF00) >>> 8) * (255 / 15),
       ((pixel &&& 0xF0) >>> 4) * (255 / 15),
       (pixel &&& 0xF) * (255 / 15)⟩
  | .BGRA_4444 =>
      let pixel := img.pixels offset
      ⟨((pixel &&& 0xF0) >>> 4) * (255 / 15),
       ((pixel &&& 0xF00) >>> 8) * (255 / 15),
       ((pixel &&& 0xF000) >>> 12) * (255 / 15),
       (pixel &&& 0xF) * (255 / 15)⟩
  | .RGBA_U8 =>
      ⟨img.pixels (4 * offset), img.pixels (4 * offset + 1),
       img.pixels (4 * offset + 2), img.pixels (4 * offset + 3)⟩
  | .BGRA_U8 =>
      ⟨img.pixels (4 * offset + 2), img.pixels (4 * offset + 1),
       img.pixels (4 * offset), img.pixels (4 * offset + 3)⟩
  | _ => Color.default0

/-- Member `Image::set_unsafe(size_t offset, Color color)` of
`src/image.cpp`: encode one pixel in place.  Only the formats the claims
exercise are modelled; float-format branches leave the buffer unchanged. -/
def Image.set_unsafe (img : Image) (offset : Nat) (color : Color) : Image :=
  match img.format with
  | .L_U8 =>
      { img with pixels := img.pixels.write offset (luminance_value color) }
  | .LA_U8 =>
      let m0 := img.pixels.write (2 * offset) (luminance_value color)
      { img with pixels := m0.write (2 * offset + 1) color.a }
  | .RGB_565 =>
      let r := u16round ((color.r : ℚ) * (31 / 255))
      let g := u16round ((color.g : ℚ) * (63 / 255))
      let b := u16round ((color.b : ℚ) * (31 / 255))
      { img with pixels := img.pixels.write offset ((r <<< 11) ||| (g <<< 5) ||| b) }
  | .BGR_565 =>
      let r := u16round ((color.r : ℚ) * (31 / 255))
      let g := u16round ((color.g : ℚ) * (63 / 255))
      let b := u16round ((color.b : ℚ) * (31 / 255))
      { img with pixels := img.pixels.write offset ((b <<< 11) ||| (g <<< 5) ||| r) }
  | .RGB_U8 =>
      let m0 := img.pixels.write (3 * offset) color.r
      let m1 := m0.write (3 * offset + 1) color.g
      { img with pixels := m1.write (3 * offset + 2) color.b }
  | .BGR_U8 =>
      let m0 := img.pixels.write (3 * offset) color.b
      let m1 := m0.write (3 * offset + 1) color.g
      { img with pixels := m1.write (3 * offset + 2) color.r }
  | .RGBA_5551 =>
      let r := u16round ((color.r : ℚ) * (31 / 255))
      let g := u16round ((color.g : ℚ) * (31 / 255))
      let b := u16round ((color.b : ℚ) * (31 / 255))
      let a : Nat := if 50 < color.a then 255 else 0
      { img with pixels := img.pixels.write offset ((r <<< 11) ||| (g <<< 6) ||| (b <<< 1) ||| a) }
  | .BGRA_5551 =>
      let r := u16round ((color.r : ℚ) * (31 / 255))
      let g := u16round ((color.g : ℚ) * (31 / 255))
      let b := u16round ((color.b : ℚ) * (31 / 255))
      let a : Nat := if 50 < color.a then 255 else 0
      { img with pixels := img.pixels.write offset ((b <<< 11) ||| (g <<< 6) ||| (r <<< 1) ||| a) }
  | .RGBA_4444 =>
      let r := u16round ((color.r : ℚ) * (15 / 255))
      let g := u16round ((color.g : ℚ) * (15 / 255))
      let b := u16round ((color.b : ℚ) * (15 / 255))
      let a := u16round ((color.a : ℚ) * (15 / 255))
      { img with pixels := img.pixels.write offset ((r <<< 12) ||| (g <<< 8) ||| (b <<< 4) ||| a) }
  | .BGRA_4444 =>
      let r := u16round ((color.r : ℚ) * (15 / 255))
      let g := u16round ((color.g : ℚ) * (15 / 255))
      let b := u16round ((color.b : ℚ) * (15 / 255))
      let a := u16round ((color.a : ℚ) * (15 / 255))
      { img with pixels := img.pixels.write offset ((b <<< 12) ||| (g <<< 8) ||| (r <<< 4) ||| a) }
  | .RGBA_U8 =>
      let m0 := img.pixels.write (4 * offset) color.r
      let m1 := m0.write (4 * offset + 1) color.g
      let m2 := m1.write (4 * offset + 2) color.b
      { img with pixels := m2.write (4 * offset + 3) color.a }
  | .BGRA_U8 =>
      let m0 := img.pixels.write (4 * offset) color.b
      let m1 := m0.write (4 * offset + 1) color.g
      let m2 := m1.write (4 * offset + 2) color.r
      { img with pixels := m2.write (4 * offset + 3) color.a }
  | _ => img

/-- Bounds-checked `Image::get(int x, int y)` of `include/BPX/image.hpp`:
in range reads through `get_unsafe(y * m_w + x)`, otherwise returns the
default-constructed `Color{}`. -/
def Image.get (img : Image) (x y : Int) : Color :=
  if 0 ≤ x ∧ x < img.w ∧ 0 ≤ y ∧ y < img.h then
    Image.get_unsafe img (y * img.w + x).toNat
  else
    Color.default0

/-- Bounds-checked `Image::set(int x, int y, Color)` of
`include/BPX/image.hpp`: in range writes through
`set_unsafe(y * m_w + x, color)`, otherwise returns `*this` untouched. -/
def Image.set (img : Image) (x y : Int) (color : Color) : Image :=
  if 0 ≤ x ∧ x < img.w ∧ 0 ≤ y ∧ y < img.h then
    Image.set_unsafe img (y * img.w + x).toNat color
  else
    img

/-- Ownership view of an `Image` for the move-semantics claim: the raw
buffer pointer (`none` models `nullptr`), the format, the dimensions and
the `m_owned` flag. -/
structure ImageHandle where
  pixels : Option Nat
  format : PixelFormat
  w : Int
  h : Int
  owned : Bool
  deriving DecidableEq, Repr

/-- Move constructor `Image::Image(Image&&)` of `src/image.cpp`: the
first component is the newly constructed image (member-by-member copy),
the second is the moved-from source after
`other.m_pixels = nullptr; other.m_owned = false;`. -/
def ImageHandle.moveCtor (other : ImageHandle) : ImageHandle × ImageHandle :=
  (⟨other.pixels, other.format, other.w, other.h, other.owned⟩,
   { other with pixels := none, owned := false })

/-- Move assignment `Image::operator=(Image&&)` of `src/image.cpp` for
distinct objects (the `this != &other` branch): the first component is
the assigned-to image, the second the moved-from source. -/
def ImageHandle.moveAssign (_this other : ImageHandle) : ImageHandle × ImageHandle :=
  (⟨other.pixels, other.format, other.w, other.h, other.owned⟩,
   { other with pixels := none, owned := false })

/-- Destructor `Image::~Image` of `src/image.cpp` releases the buffer
exactly when `m_owned && m_pixels`. -/
def ImageHandle.destructorFrees (s : ImageHandle) : Bool :=
  s.owned && s.pixels.isSome

/-- Control point of a `ColorRamp` (`ColorRamp::Point` of
`include/BPX/ramp.hpp`). -/
structure RampPoint where
  color : Color
  position : ℚ
  deriving DecidableEq, Repr

/-- A `ColorRamp`: either the static two-slot storage or the dynamic
sorted vector of `include/BPX/ramp.hpp`. -/
inductive ColorRamp where
  | static2 (p0 p1 : RampPoint)
  | dynamic (points : List RampPoint)
  deriving DecidableEq, Repr

/-- Insert a point into a position-sorted list (ascending). -/
def insertSorted (p : RampPoint) : List RampPoint → List RampPoint
  | [] => [p]
  | q :: rest =>
      if p.position < q.position then p :: q :: rest else q :: insertSorted p rest

/-- Model of `std::sort` with the `a.position < b.position` comparator:
sort ascending by position (insertion sort; stable, which refines the
unspecified order `std::sort` gives equal positions). -/
def sortPoints : List RampPoint → List RampPoint
  | [] => []
  | p :: rest => insertSorted p (sortPoints rest)

/-- Two-color constructor `ColorRamp(Color, Color)` of `ramp.hpp`:
static storage with fixed positions 0 and 1. -/
def ColorRamp.mk2 (color0 color1 : Color) : ColorRamp :=
  .static2 ⟨color0, 0⟩ ⟨color1, 1⟩

/-- Initializer-list constructor `ColorRamp(std::initializer_list<Point>)`
of `ramp.hpp`: fewer than 2 points throws; more than 2 points use dynamic
storage sorted ascending by position; exactly 2 points use static storage
holding the two points in the given order (no sort). -/
def ColorRamp.ofList (points : List RampPoint) : Except String ColorRamp :=
  if points.length < 2 then
    .error "ColorRamp requires at least 2 points."
  else if 2 < points.length then
    .ok (.dynamic (sortPoints points))
  else
    match points with
    | p0 :: p1 :: _ => .ok (.static2 p0 p1)
    | _ => .error "unreachable: length is exactly 2"

/-- Search loop of `ColorRamp::get` on dynamic storage: starting from
`i = 1`, return at the first point with `t <= position[i]`, else fall
through to the last color. -/
def rampLoop (prev : RampPoint) (t : ℚ) : List RampPoint → Color
  | [] => prev.color
  | p :: rest =>
      if t ≤ p.position then
        lerp prev.color p.color ((t - prev.position) / (p.position - prev.position))
      else
        rampLoop p t rest

/-- Member `ColorRamp::get(float t)` of `ramp.hpp`, transcribed branch by
branch.  An empty dynamic vector is never constructed by the source
(`front()` would be undefined); the model returns `Color.default0` there. -/
def ColorRamp.get (ramp : ColorRamp) (t0 : ℚ) : Color :=
  let t := clampQ t0 0 1
  match ramp with
  | .static2 p0 p1 =>
      if t ≤ p0.position then p0.color
      else if p1.position ≤ t then p1.color
      else lerp p0.color p1.color t
  | .dynamic [] => Color.default0
  | .dynamic (p :: ps) =>
      if t ≤ p.position then p.color
      else if (ps.getLastD p).position ≤ t then (ps.getLastD p).color
      else rampLoop p t ps

/-- Modelled from the spec: the search step of the lookup the spec
describes, over an ascending list — "finds the first point with position
≥ t and linearly interpolates between it and its predecessor using
`(t - pos_prev)/(pos_next - pos_prev)` as the blend factor fed into
`lerp`". -/
def specFind (prev : RampPoint) (t : ℚ) : List RampPoint → Color
  | [] => prev.color
  | p :: rest =>
      if p.position ≥ t then
        lerp prev.color p.color ((t - prev.position) / (p.position - prev.position))
      else
        specFind p t rest

/-- Modelled from the spec: `get(t)` as the specification words it, over
the ramp's control points listed in ascending position order — clamp t to
[0,1]; at or below the lowest position return that point's color; at or
above the highest return that one's; otherwise interpolate between the
first point with position ≥ t and its predecessor. -/
def specRampGet (points : List RampPoint) (t0 : ℚ) : Color :=
  match points with
  | [] => Color.default0
  | p :: ps =>
      let t := clampQ t0 0 1
      if t ≤ p.position then p.color
      else if (ps.getLastD p).position ≤ t then (ps.getLastD p).color
      else specFind p t ps

/-! ## Helper lemmas -/

/-- Shifting a masked value: masking with a shifted mask and shifting the
result down is masking the shifted value. -/
theorem and_shiftLeft_shiftRight (v m k : Nat) :
    (v &&& (m <<< k)) >>> k = (v >>> k) &&& m := by
  apply Nat.eq_of_testBit_eq
  intro i
  simp [Nat.testBit_shiftRight, Nat.testBit_and, Nat.testBit_shiftLeft,
    Nat.add_sub_cancel_left, Nat.le_add_right]

/-- Arithmetic form of `Color.ofUint32`. -/
theorem ofUint32_arith (v : Nat) :
    Color.ofUint32 v = ⟨v % 256, v / 256 % 256, v / 65536 % 256, v / 16777216 % 256⟩ := by
  unfold Color.ofUint32
  rw [show (0x0000FF00 : Nat) = 255 <<< 8 by decide,
      show (0x00FF0000 : Nat) = 255 <<< 16 by decide,
      show (0xFF000000 : Nat) = 255 <<< 24 by decide,
      and_shiftLeft_shiftRight, and_shiftLeft_shiftRight, and_shiftLeft_shiftRight,
      show (0x000000FF : Nat) = 2 ^ 8 - 1 by decide,
      Nat.and_pow_two_sub_one_eq_mod, Nat.and_pow_two_sub_one_eq_mod,
      Nat.and_pow_two_sub_one_eq_mod, Nat.and_pow_two_sub_one_eq_mod,
      Nat.shiftRight_eq_div_pow, Nat.shiftRight_eq_div_pow, Nat.shiftRight_eq_div_pow]

/-- Arithmetic form of `Color.toUint32` for byte-valued channels. -/
theorem toUint32_arith (c : Color) (h : c.Valid) :
    c.toUint32 = c.a * 16777216 + c.b * 65536 + c.g * 256 + c.r := by
  obtain ⟨h1, h2, h3, h4⟩ := h
  unfold Color.toUint32
  rw [Nat.shiftLeft_eq, Nat.shiftLeft_eq, Nat.shiftLeft_eq]
  have e1 : c.a * 2 ^ 24 ||| c.b * 2 ^ 16 = c.a * 2 ^ 24 + c.b * 2 ^ 16 := by
    rw [Nat.mul_comm (c.a) (2 ^ 24)]
    exact (Nat.mul_add_lt_is_or (by norm_num; omega) c.a).symm
  have e2 : (c.a * 2 ^ 24 + c.b * 2 ^ 16) ||| c.g * 2 ^ 8
      = c.a * 2 ^ 24 + c.b * 2 ^ 16 + c.g * 2 ^ 8 := by
    have hx : c.a * 2 ^ 24 + c.b * 2 ^ 16 = 2 ^ 16 * (c.a * 2 ^ 8 + c.b) := by ring
    rw [hx]
    exact (Nat.mul_add_lt_is_or (by norm_num; omega) (c.a * 2 ^ 8 + c.b)).symm
  have e3 : (c.a * 2 ^ 24 + c.b * 2 ^ 16 + c.g * 2 ^ 8) ||| c.r
      = c.a * 2 ^ 24 + c.b * 2 ^ 16 + c.g * 2 ^ 8 + c.r := by
    have hx : c.a * 2 ^ 24 + c.b * 2 ^ 16 + c.g * 2 ^ 8
        = 2 ^ 8 * (c.a * 2 ^ 16 + c.b * 2 ^ 8 + c.g) := by ring
    rw [hx]
    exact (Nat.mul_add_lt_is_or (by omega) (c.a * 2 ^ 16 + c.b * 2 ^ 8 + c.g)).symm
  rw [e1, e2, e3]
  norm_num

/-- Truncation of a natural number cast is the identity. -/
theorem qTrunc_natCast (n : Nat) : qTrunc (n : ℚ) = n := by
  unfold qTrunc
  rw [if_pos (by positivity)]
  exact Int.floor_natCast n

/-- On a byte value, `clamp_ubyte` is the identity. -/
theorem clamp_ubyte_byte (n : Nat) (h : n < 256) : clamp_ubyte (n : ℤ) = n := by
  unfold clamp_ubyte
  omega

/-- The spec-side search step coincides with the source's loop. -/
theorem specFind_eq_rampLoop (l : List RampPoint) (prev : RampPoint) (t : ℚ) :
    specFind prev t l = rampLoop prev t l := by
  induction l generalizing prev with
  | nil => rfl
  | cons p rest ih => simp [specFind, rampLoop, ge_iff_le, ih]

/-! ## Claims -/

/-- C1: the claim states that `pixel_size` returns bytes per pixel (4 for
RGBA_U8, 2 for every packed 16-bit format, 8 for RGBA_F16, 16 for
RGBA_F32).  The source instead returns 32 for RGBA_U8, 16 for the 5551
and 4444 formats, 4 for the 565 formats, 64 for RGBA_F16 and 128 for
RGBA_F32 — in conflict with the spec table (`spec_bytes_per_pixel`), with
its own doc comment ("size (in bytes) of a single pixel"), and with the
4-bytes-per-pixel RGBA_U8 buffers produced by the file-loading
constructor. -/
theorem c1_pixel_size_not_bytes :
    pixel_size .RGBA_U8 = 32 ∧ spec_bytes_per_pixel .RGBA_U8 = 4
    ∧ pixel_size .RGB_565 = 4 ∧ spec_bytes_per_pixel .RGB_565 = 2
    ∧ pixel_size .RGBA_5551 = 16 ∧ spec_bytes_per_pixel .RGBA_5551 = 2
    ∧ pixel_size .RGBA_F16 = 64 ∧ spec_bytes_per_pixel .RGBA_F16 = 8
    ∧ pixel_size .RGBA_F32 = 128 ∧ spec_bytes_per_pixel .RGBA_F32 = 16
    ∧ pixel_size .L_U8 = 1 ∧ pixel_size .LA_U8 = 2 ∧ pixel_size .RGB_U8 = 3 := by
  decide

/-- C6: out-of-range coordinates make the checked `get` return the
default-constructed transparent black color, and make the checked `set`
a complete no-op (the returned image is the unchanged input, so every
pixel of the buffer is untouched). -/
theorem c6_checked_accessors_clip (img : Image) (x y : Int) (color : Color)
    (h : x < 0 ∨ img.w ≤ x ∨ y < 0 ∨ img.h ≤ y) :
    img.get x y = Color.default0 ∧ img.set x y color = img := by
  unfold Image.get Image.set
  rw [if_neg (by omega), if_neg (by omega)]
  exact ⟨rfl, rfl⟩

/-- Witness for C6 at a concrete 2×2 image and the out-of-range
coordinate (5, 0). -/
theorem c6_checked_accessors_clip_witness :
    (Image.get ⟨fun _ => 0, .RGBA_U8, 2, 2⟩ 5 0 = Color.default0
      ∧ Image.set ⟨fun _ => 0, .RGBA_U8, 2, 2⟩ 5 0 ⟨9, 9, 9, 9⟩
          = (⟨fun _ => 0, .RGBA_U8, 2, 2⟩ : Image)) :=
  c6_checked_accessors_clip ⟨fun _ => 0, .RGBA_U8, 2, 2⟩ 5 0 ⟨9, 9, 9, 9⟩
    (by right; left; decide)

/-- C7: moving an `Image` (by move construction or move assignment into a
distinct object) leaves the source with a null pixel pointer and a
cleared owned flag, so its destructor frees nothing, while the
destination receives exactly the source's pointer, format, dimensions and
ownership flag. -/
theorem c7_move_semantics (s d0 : ImageHandle) :
    (s.moveCtor.1 = s
      ∧ s.moveCtor.2.pixels = none
      ∧ s.moveCtor.2.owned = false
      ∧ s.moveCtor.2.destructorFrees = false)
    ∧ ((d0.moveAssign s).1 = s
      ∧ (d0.moveAssign s).2.pixels = none
      ∧ (d0.moveAssign s).2.owned = false
      ∧ (d0.moveAssign s).2.destructorFrees = false) := by
  refine ⟨⟨rfl, rfl, rfl, ?_⟩, ⟨rfl, rfl, rfl, ?_⟩⟩ <;>
    simp [ImageHandle.destructorFrees, ImageHandle.moveCtor, ImageHandle.moveAssign]

/-- C9: the 32-bit packed view of `Color` is a bijection between
byte-valued colors and 32-bit values: `Color(uint32_t(c)) == c` and
`uint32_t(Color(v)) == v`. -/
theorem c9_uint32_bijection :
    (∀ c : Color, c.Valid → Color.ofUint32 c.toUint32 = c)
    ∧ (∀ v : Nat, v < 2 ^ 32 → (Color.ofUint32 v).toUint32 = v) := by
  constructor
  · intro c hc
    obtain ⟨h1, h2, h3, h4⟩ := hc
    rw [toUint32_arith c ⟨h1, h2, h3, h4⟩, ofUint32_arith]
    obtain ⟨r, g, b, a⟩ := c
    simp only [Color.mk.injEq]
    simp only at h1 h2 h3 h4
    refine ⟨by omega, by omega, by omega, by omega⟩
  · intro v hv
    rw [ofUint32_arith,
        toUint32_arith _ ⟨Nat.mod_lt _ (by norm_num), Nat.mod_lt _ (by norm_num),
          Nat.mod_lt _ (by norm_num), Nat.mod_lt _ (by norm_num)⟩]
    simp only
    omega

/-- Witness for C9: both round trips at concrete values. -/
theorem c9_uint32_bijection_witness :
    Color.ofUint32 (Color.toUint32 ⟨17, 34, 51, 68⟩) = ⟨17, 34, 51, 68⟩
    ∧ (Color.ofUint32 0xAABBCCDD).toUint32 = 0xAABBCCDD :=
  ⟨c9_uint32_bijection.1 ⟨17, 34, 51, 68⟩ (by decide),
   c9_uint32_bijection.2 0xAABBCCDD (by norm_num)⟩

/-- C10: a hue outside [0, 360) matches none of the six sector branches
of `Color::from_hsv`, so the pre-offset r, g, b stay 0 and every RGB
channel of the result is `(value - value*saturation) * 255` truncated to
uint8; in particular `from_hsv(360, 1, 1)` is black, not red. -/
theorem c10_from_hsv_hue_out_of_range (hue s v a : ℚ)
    (h : hue < 0 ∨ 360 ≤ hue) :
    Color.from_hsv hue s v a
      = ⟨u8cast ((v - v * s) * 255), u8cast ((v - v * s) * 255),
         u8cast ((v - v * s) * 255), u8cast (a * 255)⟩
    ∧ Color.from_hsv 360 1 1 1 = ⟨0, 0, 0, 255⟩ := by
  constructor
  · have hc1 : ¬(0 ≤ hue ∧ hue < 60) := by rintro ⟨u1, u2⟩; rcases h with h | h <;> linarith
    have hc2 : ¬(60 ≤ hue ∧ hue < 120) := by rintro ⟨u1, u2⟩; rcases h with h | h <;> linarith
    have hc3 : ¬(120 ≤ hue ∧ hue < 180) := by rintro ⟨u1, u2⟩; rcases h with h | h <;> linarith
    have hc4 : ¬(180 ≤ hue ∧ hue < 240) := by rintro ⟨u1, u2⟩; rcases h with h | h <;> linarith
    have hc5 : ¬(240 ≤ hue ∧ hue < 300) := by rintro ⟨u1, u2⟩; rcases h with h | h <;> linarith
    have hc6 : ¬(300 ≤ hue ∧ hue < 360) := by rintro ⟨u1, u2⟩; rcases h with h | h <;> linarith
    simp only [Color.from_hsv]
    rw [if_neg hc1, if_neg hc2, if_neg hc3, if_neg hc4, if_neg hc5, if_neg hc6]
    norm_num
  · unfold Color.from_hsv
    norm_num [u8cast, qTrunc]
    decide

/-- Witness for C10: the claim instantiated at hue = 360. -/
theorem c10_from_hsv_hue_out_of_range_witness :
    Color.from_hsv 360 1 1 1 = ⟨0, 0, 0, 255⟩ :=
  (c10_from_hsv_hue_out_of_range 360 1 1 1 (by norm_num)).2

/-- C5: blending a fully opaque source over any destination with the
ALPHA mode returns the source exactly, alpha channel included. -/
theorem c5_blend_alpha_opaque (dst src : Color) (hsrc : src.Valid)
    (ha : src.a = 255) :
    blend dst src .ALPHA = src := by
  obtain ⟨h1, h2, h3, h4⟩ := hsrc
  obtain ⟨r, g, b, a⟩ := src
  simp only at h1 h2 h3 ha
  subst ha
  unfold blend
  simp only
  norm_num
  rw [qTrunc_natCast, qTrunc_natCast, qTrunc_natCast,
      clamp_ubyte_byte r h1, clamp_ubyte_byte g h2, clamp_ubyte_byte b h3,
      show ((255 : ℚ) = ((255 : Nat) : ℚ)) by norm_num, qTrunc_natCast]
  exact ⟨rfl, rfl, rfl, by decide⟩

/-- Witness for C5 at a concrete destination and opaque source. -/
theorem c5_blend_alpha_opaque_witness :
    blend ⟨7, 8, 9, 10⟩ ⟨1, 2, 3, 255⟩ .ALPHA = ⟨1, 2, 3, 255⟩ :=
  c5_blend_alpha_opaque ⟨7, 8, 9, 10⟩ ⟨1, 2, 3, 255⟩ (by decide) rfl

/-- C2 counterexample: the claim includes the luminance format L_U8, but
`set_unsafe` stores `luminance_value(c)` there, so setting opaque red and
reading back yields opaque gray (76, 76, 76, 255), not red. -/
theorem c2_round_trip_counterexample :
    Image.get_unsafe ( Image.set_unsafe ⟨fun _ => 0, .L_U8, 1, 1⟩ 0 ⟨255, 0, 0, 255⟩) 0
      ≠ ⟨255, 0, 0, 255⟩ := by
  norm_num [Mem.write, Image.set_unsafe, Image.get_unsafe, luminance_value, u8cast, qTrunc]

/-- C2 (amended): for the 8-bit integer formats that store the color
channels verbatim — RGBA_U8, BGRA_U8 and, restricted to colors with
a = 255, RGB_U8 and BGR_U8 — `set_unsafe` followed by `get_unsafe` at the
same offset returns exactly the written color (alpha-less formats read
back a = 255).  The luminance formats L_U8 and LA_U8 collapse RGB to
`luminance_value` and are excluded. -/
theorem c2_round_trip_amended (img : Image) (offset : Nat) (c : Color)
    (hc : c.Valid) :
    ((img.format = .RGBA_U8 ∨ img.format = .BGRA_U8) →
      Image.get_unsafe ( Image.set_unsafe img offset c) offset = c)
    ∧ ((img.format = .RGB_U8 ∨ img.format = .BGR_U8) → c.a = 255 →
      Image.get_unsafe ( Image.set_unsafe img offset c) offset = c) := by
  obtain ⟨mem, fmt, w, h⟩ := img
  obtain ⟨r, g, b, a⟩ := c
  constructor
  · rintro (hfmt | hfmt) <;> simp only at hfmt <;> subst hfmt <;>
      simp only [Mem.write, Image.set_unsafe, Image.get_unsafe, Color.mk.injEq] <;>
      refine ⟨?_, ?_, ?_, ?_⟩ <;> (first | trivial | (split_ifs <;> omega))
  · rintro (hfmt | hfmt) ha <;> simp only at hfmt ha <;> subst hfmt <;> subst ha <;>
      simp only [Mem.write, Image.set_unsafe, Image.get_unsafe, Color.mk.injEq] <;>
      refine ⟨?_, ?_, ?_, ?_⟩ <;> (first | trivial | (split_ifs <;> omega))

/-- Witness for the amended C2: the round trip at a concrete RGBA_U8
image, offset and color. -/
theorem c2_round_trip_amended_witness :
    Image.get_unsafe ( Image.set_unsafe ⟨fun _ => 0, .RGBA_U8, 1, 1⟩ 0 ⟨1, 2, 3, 4⟩) 0
      = ⟨1, 2, 3, 4⟩ :=
  (c2_round_trip_amended ⟨fun _ => 0, .RGBA_U8, 1, 1⟩ 0 ⟨1, 2, 3, 4⟩ (by decide)).1
    (Or.inl rfl)

/-- C3: evaluation of the RGBA_5551 codec at two failing inputs.  Writing
opaque black stores the 16-bit word `0 | 0 | 0 | 255`: the alpha operand
`255` (not a single bit) overlaps the blue and green fields, so reading
back gives (0, 24, 248, 255) instead of (0, 0, 0, 255).  Writing opaque
white stores field value 31 in each 5-bit channel, and the decode scale
`255 / 31` truncates to 8, so reading back gives (248, 248, 248, 255)
instead of (255, 255, 255, 255).  Both contradict the claim that the
fields are disjoint and that stored value 31 decodes to 255. -/
theorem c3_packed_5551_violations :
    Image.get_unsafe ( Image.set_unsafe ⟨fun _ => 0, .RGBA_5551, 1, 1⟩ 0 ⟨0, 0, 0, 255⟩) 0
        = ⟨0, 24, 248, 255⟩
    ∧ Image.get_unsafe ( Image.set_unsafe ⟨fun _ => 0, .RGBA_5551, 1, 1⟩ 0 ⟨255, 255, 255, 255⟩) 0
        = ⟨248, 248, 248, 255⟩ := by
  constructor <;>
    · simp only [Mem.write, Image.set_unsafe, Image.get_unsafe]
      norm_num [Mem.write, u16round, qRound]
      decide

/-- C4 counterexample: a two-point initializer-list ramp with control
positions 1/4 and 3/4 (sorted, inside [0,1]) is stored in static storage,
and `get(3/8)` interpolates with the raw parameter t = 3/8 instead of the
claim's normalized factor (3/8 - 1/4)/(3/4 - 1/4) = 1/4, returning
(95, 95, 95, 255) rather than the claimed lerp value (63, 63, 63, 255). -/
theorem c4_ramp_get_counterexample :
    ColorRamp.ofList [⟨⟨0, 0, 0, 255⟩, 1/4⟩, ⟨⟨255, 255, 255, 255⟩, 3/4⟩]
        = .ok (.static2 ⟨⟨0, 0, 0, 255⟩, 1/4⟩ ⟨⟨255, 255, 255, 255⟩, 3/4⟩)
    ∧ (ColorRamp.static2 ⟨⟨0, 0, 0, 255⟩, 1/4⟩ ⟨⟨255, 255, 255, 255⟩, 3/4⟩).get (3/8)
        ≠ lerp ⟨0, 0, 0, 255⟩ ⟨255, 255, 255, 255⟩ (((3/8 : ℚ) - 1/4) / (3/4 - 1/4)) := by
  constructor
  · rfl
  · norm_num [ColorRamp.get, clampQ, lerp, u8cast, qTrunc]
    decide

/-- C4 (amended): ramps built from three or more points (stored sorted
ascending in dynamic storage) look up exactly as the claim describes
(`specRampGet` over the sorted points); a two-point ramp uses its stored
pair positionally and the clamped t itself as the blend factor, so for it
the claimed behaviour holds when the two points sit at positions 0 and 1
in ascending order, as produced by the two-color constructor. -/
theorem c4_ramp_get_amended :
    (∀ (pts : List RampPoint) (r : ColorRamp) (t : ℚ), 3 ≤ pts.length →
      ColorRamp.ofList pts = .ok r → r.get t = specRampGet (sortPoints pts) t)
    ∧ (∀ (c0 c1 : Color) (t : ℚ),
      (ColorRamp.mk2 c0 c1).get t = specRampGet [⟨c0, 0⟩, ⟨c1, 1⟩] t) := by
  constructor
  · intro pts r t hlen hok
    unfold ColorRamp.ofList at hok
    rw [if_neg (by omega), if_pos (by omega)] at hok
    simp only [Except.ok.injEq] at hok
    subst hok
    cases hsp : sortPoints pts with
    | nil => simp [ColorRamp.get, specRampGet]
    | cons p ps => simp [ColorRamp.get, specRampGet, specFind_eq_rampLoop]
  · intro c0 c1 t
    simp only [ColorRamp.mk2, ColorRamp.get, specRampGet, List.getLastD_cons,
      List.getLastD_nil]
    generalize clampQ t 0 1 = t2
    split_ifs with h1 h2
    · rfl
    · rfl
    · rw [specFind, if_pos (by simpa using (not_le.mp h2).le)]
      norm_num

/-- Witness for the amended C4: a concrete three-point ramp and a
concrete two-point query both agree with the spec-side lookup. -/
theorem c4_ramp_get_amended_witness :
    (ColorRamp.dynamic (sortPoints
        [⟨⟨255, 0, 0, 255⟩, 0⟩, ⟨⟨0, 255, 0, 255⟩, 1/2⟩, ⟨⟨0, 0, 255, 255⟩, 1⟩])).get (1/4)
      = specRampGet (sortPoints
        [⟨⟨255, 0, 0, 255⟩, 0⟩, ⟨⟨0, 255, 0, 255⟩, 1/2⟩, ⟨⟨0, 0, 255, 255⟩, 1⟩]) (1/4) :=
  c4_ramp_get_amended.1 _ _ (1/4) (by decide) rfl

/-- C8: evaluating `contrast` at factor 0 (which clamps and squares to a
scale factor of 1, so every channel should be returned unchanged) on pure
green (0, 255, 0, 255) yields pure blue (0, 0, 255, 255): the returned
initialiser lists `rf, bf, gf`, writing the blue computation into the
green channel and the green computation into the blue channel, against
the claim's red-to-red, green-to-green, blue-to-blue mapping. -/
theorem c8_contrast_swaps_green_blue :
    contrast ⟨0, 255, 0, 255⟩ 0 = ⟨0, 0, 255, 255⟩ := by
  norm_num [contrast, clampQ, u8cast, qTrunc]
  decide

end BPX
